import Mathlib

set_option maxRecDepth 8000

/-!
Verification model of the peer-reviewer persistence layer
(`src-tauri/src/lib.rs`): a directory-scoped file store plus an HTML
asset copier (`copy_html_with_images`) that scans a document byte-wise
for `<img ... src="...">` occurrences, classifies each `src` value,
percent-decodes it, and replicates accepted local assets into the store.

Modelling conventions:
* A filesystem path is a list of components (`Path`); `resolvePath`
  mirrors what the operating system does when a path with `..` segments
  is looked up (no symlinks are modelled).  The code itself never
  normalizes `..`.
* The filesystem is a finite association list from resolved absolute
  paths to file contents, plus a list of explicitly created directories;
  every ancestor of a file or of a created directory also counts as a
  directory.  `some s` is a file whose bytes are the UTF-8 encoding of
  `s`; `none` is a file whose bytes are not valid UTF-8 (so
  `fs::read_to_string` fails on it).  I/O is fault-free: the only copy,
  write and delete failures modelled are the structural ones (missing
  source, destination is a directory, a file blocking a parent
  directory), which is exactly the error surface the claims speak about.
* Strings are modelled at the byte level where the Rust code works at
  the byte level (`urlencoding_decode`, the `<img` scan); Rust `&str`
  slicing panics when a slice boundary is not a UTF-8 character
  boundary, and the model returns `Option`/`ScanRes.panicked` there.
-/

namespace PR

/-- An absolute filesystem path, as a list of components.  `.` components
are already removed (as Rust's `Path::components` does); `..` components
are kept, because the source code never normalizes them. -/
abbrev Path := List String

/-- What the operating system resolves a path with `..` segments to when
it is looked up: each `..` removes the preceding component (`..` at the
root stays at the root). -/
def resolvePath (p : Path) : Path :=
  p.foldl (fun acc c => if c = ".." then acc.dropLast else acc ++ [c]) []

/-- Splitting a character list at `/`, mirroring Rust path-component
splitting (`"a/b"` gives `["a","b"]`, `"/a"` gives `["","a"]`, ...). -/
def splitSlash : List Char → List (List Char)
  | [] => [[]]
  | c :: rest =>
    if c = '/' then [] :: splitSlash rest
    else
      match splitSlash rest with
      | [] => [[c]]
      | g :: gs => (c :: g) :: gs

/-- The components of a path string: split at `/`, dropping empty
components and `.` components, exactly as Rust's `Path::components`
normal-form does.  `..` components are kept. -/
def parseComps (s : String) : Path :=
  ((splitSlash s.data).filter (fun l => !(l.isEmpty || l == ['.']))).map
    (fun l => String.mk l)

/-- Whether a path string is absolute (starts with `/`). -/
def startsSlash (s : String) : Bool :=
  match s.data with
  | '/' :: _ => true
  | _ => false

/-- `PathBuf::join`: joining an absolute path replaces the base, joining
a relative path appends its components. -/
def joinPath (dir : Path) (s : String) : Path :=
  if startsSlash s then parseComps s else dir ++ parseComps s

/-- `Path::file_name`: the last component, unless the path is empty or
terminates in `..`. -/
def fileName (p : Path) : Option String :=
  match p.getLast? with
  | none => none
  | some c => if c = ".." then none else some c

/-- The model filesystem: files as an association list from resolved
paths to contents (`some s` = UTF-8 text `s`, `none` = bytes that are
not valid UTF-8), plus explicitly created directories (ancestors of
files and of created directories are directories implicitly). -/
structure Fs where
  files : List (Path × Option String)
  dirs : List Path
deriving DecidableEq

/-- Look up the regular file at a resolved path. -/
def lookupFile (fs : Fs) (p : Path) : Option (Option String) :=
  (fs.files.find? (fun e => e.1 == p)).map (fun e => e.2)

/-- Whether a resolved path denotes a directory: the root, any ancestor
or self of a created directory, or a strict ancestor of a file. -/
def isDirAt (fs : Fs) (p : Path) : Bool :=
  p.isEmpty || fs.dirs.any (fun d => p.isPrefixOf d)
    || fs.files.any (fun e => p.isPrefixOf e.1 && !(p == e.1))

/-- `Path::exists`: the OS resolves `..` segments, then reports whether a
file or directory is there. -/
def pathExists (fs : Fs) (p : Path) : Bool :=
  (lookupFile fs (resolvePath p)).isSome || isDirAt fs (resolvePath p)

/-- Whether some ancestor-or-self of `p` is an existing regular file
(which makes directory creation and file creation below it fail). -/
def blockedByFile (fs : Fs) (p : Path) : Bool :=
  (List.range (p.length + 1)).any (fun i => (lookupFile fs (p.take i)).isSome)

/-- `fs::create_dir_all` on a resolved path: fails iff a file blocks the
chain; otherwise records the directory. -/
def createDirAll (fs : Fs) (p : Path) : Except String Fs :=
  if blockedByFile fs p then .error ("create_dir_all failed")
  else .ok { fs with dirs := p :: fs.dirs }

/-- Raw insertion/overwrite of a file at a resolved path. -/
def fsWrite (fs : Fs) (p : Path) (d : Option String) : Fs :=
  { files := (p, d) :: fs.files.filter (fun e => !(e.1 == p)), dirs := fs.dirs }

/-- Removal of the file at a resolved path. -/
def fsRemoveFile (fs : Fs) (p : Path) : Fs :=
  { files := fs.files.filter (fun e => !(e.1 == p)), dirs := fs.dirs }

/-- `fs::copy src dst`: fails if `src` is not a regular file, if `dst`
is a directory, or if the parent of `dst` is not an existing directory
(`fs::copy` does not create parent directories). -/
def fsCopy (fs : Fs) (src dst : Path) : Except String Fs :=
  match lookupFile fs (resolvePath src) with
  | none => .error ("copy: source is not a regular file")
  | some d =>
    if isDirAt fs (resolvePath dst) then .error ("copy: destination is a directory")
    else if !(isDirAt fs ((resolvePath dst).dropLast)) then
      .error ("copy: destination parent is not a directory")
    else .ok (fsWrite fs (resolvePath dst) d)

/-- `get_data_dir`: the store root is an externally supplied path; the
function creates it when nothing exists there (if anything — even a
file — exists at the path, creation is skipped, as in the source). -/
def get_data_dir (fs : Fs) (dataDir : Path) : Except String Fs :=
  if pathExists fs dataDir then .ok fs
  else
    match createDirAll fs (resolvePath dataDir) with
    | .ok fs1 => .ok fs1
    | .error e => .error ("Failed to create data dir: " ++ e)

/-- `copy_file_to_data`: existence check, basename extraction, store-root
resolution, then a flatten-copy into the store root under the basename. -/
def copy_file_to_data (fs : Fs) (dataDir : Path) (sourcePath : String) :
    Except String (String × Fs) :=
  let source := parseComps sourcePath
  if !(pathExists fs source) then
    .error ("Source file does not exist: " ++ sourcePath)
  else
    match fileName source with
    | none => .error ("Invalid filename")
    | some fn =>
      match get_data_dir fs dataDir with
      | .error e => .error e
      | .ok fs1 =>
        match fsCopy fs1 source (dataDir ++ [fn]) with
        | .error _ => .error ("Failed to copy file")
        | .ok fs2 => .ok (fn, fs2)

/-- `read_data_file`: join the caller-supplied relative name onto the
store root and read it as UTF-8 text. -/
def read_data_file (fs : Fs) (dataDir : Path) (filename : String) :
    Except String String :=
  match get_data_dir fs dataDir with
  | .error e => .error e
  | .ok fs1 =>
    match lookupFile fs1 (resolvePath (joinPath dataDir filename)) with
    | some (some s) => .ok s
    | _ => .error ("Failed to read file: " ++ filename)

/-- `write_data_file`: join the name onto the store root, create missing
parent directories (propagating that failure), then write. -/
def write_data_file (fs : Fs) (dataDir : Path) (filename content : String) :
    Except String Fs :=
  match get_data_dir fs dataDir with
  | .error e => .error e
  | .ok fs1 =>
    let rawPath := joinPath dataDir filename
    let parentStep : Except String Fs :=
      if rawPath = [] then .ok fs1
      else if pathExists fs1 rawPath.dropLast then .ok fs1
      else
        match createDirAll fs1 (resolvePath rawPath.dropLast) with
        | .ok fs2 => .ok fs2
        | .error _ => .error ("Failed to create directory")
    match parentStep with
    | .error e => .error e
    | .ok fs2 =>
      if isDirAt fs2 (resolvePath rawPath) then
        .error ("Failed to write file: " ++ filename)
      else if !(isDirAt fs2 (resolvePath rawPath).dropLast) then
        .error ("Failed to write file: " ++ filename)
      else .ok (fsWrite fs2 (resolvePath rawPath) (some content))

/-- `delete_data_file`: a no-op when nothing exists at the joined path;
`fs::remove_file` fails when the path exists but is a directory. -/
def delete_data_file (fs : Fs) (dataDir : Path) (filename : String) :
    Except String Fs :=
  match get_data_dir fs dataDir with
  | .error e => .error e
  | .ok fs1 =>
    let p := resolvePath (joinPath dataDir filename)
    if pathExists fs1 (joinPath dataDir filename) then
      match lookupFile fs1 p with
      | some _ => .ok (fsRemoveFile fs1 p)
      | none => .error ("Failed to delete file")
    else .ok fs1

/-! ## Byte-level string model -/

/-- UTF-8 encoding of a Unicode scalar value. -/
def utf8EncodeChar (n : Nat) : List Nat :=
  if n < 0x80 then [n]
  else if n < 0x800 then [0xC0 + n / 64, 0x80 + n % 64]
  else if n < 0x10000 then
    [0xE0 + n / 4096, 0x80 + (n / 64) % 64, 0x80 + n % 64]
  else
    [0xF0 + n / 262144, 0x80 + (n / 4096) % 64, 0x80 + (n / 64) % 64,
      0x80 + n % 64]

/-- The UTF-8 bytes of a string (what Rust's `str::as_bytes` exposes). -/
def strBytes (s : String) : List Nat :=
  (s.data.map (fun c => utf8EncodeChar c.toNat)).flatten

/-- Whether a byte is a UTF-8 continuation byte (`0x80..=0xBF`). -/
def isContinuation (b : Nat) : Bool :=
  decide (0x80 ≤ b ∧ b < 0xC0)

/-- Rust's `str::is_char_boundary` on a byte index: `0`, the length, or a
byte that is not a continuation byte; out of bounds is not a boundary.
Slicing a `&str` at a non-boundary index panics. -/
def isBoundary (l : List Nat) (i : Nat) : Bool :=
  if i = 0 then true
  else if i = l.length then true
  else
    match l[i]? with
    | some b => !(isContinuation b)
    | none => false

/-- Decoding UTF-8 bytes back into characters.  On the valid encodings
this model ever feeds it (slices of `strBytes` output taken at character
boundaries) it is the exact inverse of `strBytes`; the fallback branches
for truncated sequences are unreachable there. -/
def utf8Decode : List Nat → List Char
  | [] => []
  | b :: rest =>
    if b < 0x80 then Char.ofNat b :: utf8Decode rest
    else if b < 0xE0 then
      match rest with
      | b1 :: rest1 => Char.ofNat ((b % 32) * 64 + b1 % 64) :: utf8Decode rest1
      | [] => [Char.ofNat b]
    else if b < 0xF0 then
      match rest with
      | b1 :: b2 :: rest2 =>
        Char.ofNat (((b % 16) * 64 + b1 % 64) * 64 + b2 % 64) :: utf8Decode rest2
      | _ => [Char.ofNat b]
    else
      match rest with
      | b1 :: b2 :: b3 :: rest3 =>
        Char.ofNat ((((b % 8) * 64 + b1 % 64) * 64 + b2 % 64) * 64 + b3 % 64)
          :: utf8Decode rest3
      | _ => [Char.ofNat b]

/-! ## Relative-reference classifier (lib.rs lines 166-174) -/

/-- The 25 code points with the Unicode `White_Space` property, which is
exactly what Rust's `char::is_whitespace` (used by `str::trim`) tests. -/
def wsCodes : List Nat :=
  [0x9, 0xA, 0xB, 0xC, 0xD, 0x20, 0x85, 0xA0, 0x1680,
   0x2000, 0x2001, 0x2002, 0x2003, 0x2004, 0x2005, 0x2006, 0x2007,
   0x2008, 0x2009, 0x200A, 0x2028, 0x2029, 0x202F, 0x205F, 0x3000]

/-- Rust's `char::is_whitespace`. -/
def rustIsWhitespace (c : Char) : Bool :=
  wsCodes.contains c.toNat

/-- Rust's `str::trim` on a character list: drop whitespace characters
from both ends. -/
def rustTrimList (l : List Char) : List Char :=
  ((l.dropWhile rustIsWhitespace).reverse.dropWhile rustIsWhitespace).reverse

/-- Rust's `str::trim`. -/
def rustTrim (s : String) : String :=
  String.mk (rustTrimList s.data)

/-- The relative-reference classifier applied to a raw `src` attribute
value (lib.rs 166-174): trim, then accept unless empty or starting with
one of the scheme prefixes or `/`.  `str::starts_with` with an ASCII
pattern is equivalent to a character-level prefix test. -/
def acceptsRelative (s : String) : Bool :=
  let t := rustTrimList s.data
  !t.isEmpty
    && !(List.isPrefixOf ("http://").data t)
    && !(List.isPrefixOf ("https://").data t)
    && !(List.isPrefixOf ("data:").data t)
    && !(List.isPrefixOf ("blob:").data t)
    && !(List.isPrefixOf ("file:").data t)
    && !(List.isPrefixOf ['/'] t)

/-! ## Percent-decoder (`urlencoding_decode`, lib.rs 206-225) -/

/-- One hexadecimal digit, as `u8::from_str_radix` accepts them. -/
def hexVal (b : Nat) : Option Nat :=
  if 0x30 ≤ b ∧ b ≤ 0x39 then some (b - 0x30)
  else if 0x61 ≤ b ∧ b ≤ 0x66 then some (b - 0x61 + 10)
  else if 0x41 ≤ b ∧ b ≤ 0x46 then some (b - 0x41 + 10)
  else none

/-- `u8::from_str_radix` on a two-byte slice with radix 16.  Rust's
integer parser accepts an optional leading sign, and for an unsigned
type a `-` sign parses successfully only when the value is zero. -/
def fromStrRadix16 (b1 b2 : Nat) : Option Nat :=
  if b1 = 0x2B then hexVal b2
  else if b1 = 0x2D then
    match hexVal b2 with
    | some 0 => some 0
    | _ => none
  else
    match hexVal b1, hexVal b2 with
    | some h, some l => some (h * 16 + l)
    | _, _ => none

/-- The byte-level loop of `urlencoding_decode`.  On `%` with at least
two following bytes the code slices `input[i+1..i+3]`; that slice panics
(modelled as `none`) when index `i+3` lands inside a multi-byte
character, i.e. when the byte after the two candidate digits is a
continuation byte.  (Index `i+1` is always a boundary because byte `i`
is ASCII `%`.)  Otherwise a parsed hex byte is emitted and three bytes
are consumed, or the literal byte is emitted and one byte is consumed. -/
def percentDecodeBytes : List Nat → Option (List Nat)
  | b :: b1 :: b2 :: rest =>
    if b = 0x25 then
      if (match rest with
          | b3 :: _ => isContinuation b3
          | [] => false) then none
      else
        match fromStrRadix16 b1 b2 with
        | some v => (percentDecodeBytes rest).map (fun l => v :: l)
        | none => (percentDecodeBytes (b1 :: b2 :: rest)).map (fun l => b :: l)
    else (percentDecodeBytes (b1 :: b2 :: rest)).map (fun l => b :: l)
  | b :: rest => (percentDecodeBytes rest).map (fun l => b :: l)
  | [] => some []

/-- `urlencoding_decode`: decode the UTF-8 bytes of the input and emit
each produced byte as the character with that code point (`val as char`
and `bytes[i] as char` in the source).  `none` models the slice panic. -/
def urlencoding_decode (s : String) : Option String :=
  (percentDecodeBytes (strBytes s)).map (fun l => String.mk (l.map Char.ofNat))

/-! ## HTML asset copier (`copy_html_with_images`, lib.rs 118-203) -/

/-- Byte-wise lowercasing: `A`-`Z` map to `a`-`z`, every other byte is
kept.  This models `str::to_lowercase` faithfully on every string whose
non-ASCII characters are invariant under Unicode lowercasing (all
concrete inputs below are such strings, and the quantified theorems
below restrict to ASCII content); for such strings Rust's lowercased
string has the same byte length, so byte indices found in it transfer
to the original, as lines 149-153 of the source assume. -/
def lowerByte (b : Nat) : Nat :=
  if 0x41 ≤ b ∧ b ≤ 0x5A then b + 32 else b

/-- `to_lowercase` at the byte level. -/
def lowerBytes (l : List Nat) : List Nat :=
  l.map lowerByte

/-- `str::find(pattern)`: the first byte index at which the pattern
occurs, if any (index-accumulating so that evaluation is iterative). -/
def findSubFrom (n : List Nat) (i : Nat) : List Nat → Option Nat
  | [] => if n.isEmpty then some i else none
  | h :: t =>
    if List.isPrefixOf n (h :: t) then some i else findSubFrom n (i + 1) t

/-- `str::find(pattern)`: the first byte index at which the pattern
occurs, if any. -/
def findSub (h n : List Nat) : Option Nat :=
  findSubFrom n 0 h

/-- The bytes of `"<img"`. -/
def imgPat : List Nat := [0x3C, 0x69, 0x6D, 0x67]

/-- The bytes of `"src="`. -/
def srcPat : List Nat := [0x73, 0x72, 0x63, 0x3D]

/-- Lines 176-189 of the source: resolve the decoded reference against
the source directory, and when something exists there, create the missing
destination parent directories (ignoring failure) and copy, counting only
a successful copy.  The destination is the store root joined with the
decoded relative path. -/
def assetCopyStep (fs : Fs) (sourceDir dataDir : Path) (decoded : String) :
    Fs × Bool :=
  let imgSource := joinPath sourceDir decoded
  if pathExists fs imgSource then
    let imgDest := joinPath dataDir decoded
    let fs1 :=
      if pathExists fs imgDest.dropLast then fs
      else
        match createDirAll fs (resolvePath imgDest.dropLast) with
        | .ok f => f
        | .error _ => fs
    match fsCopy fs1 imgSource imgDest with
    | .ok fs2 => (fs2, true)
    | .error _ => (fs1, false)
  else (fs, false)

/-- Lines 156-194 of the source, applied to one `tag_region`: look for
`src=` (case-insensitively), read the quote byte after it, capture the
value up to the matching quote, classify, percent-decode, and copy.
`none` models a panic (a slice at a non-boundary index inside the
region, or the percent-decoder's panic); `some (fs, copied)` is the
filesystem afterwards and whether a copy succeeded. -/
def scanStep (fs : Fs) (sourceDir dataDir : Path) (tagRegion : List Nat) :
    Option (Fs × Bool) :=
  match findSub (lowerBytes tagRegion) srcPat with
  | none => some (fs, false)
  | some srcOffset =>
    if srcOffset + 4 < tagRegion.length then
      let quote := tagRegion.getD (srcOffset + 4) 0
      if quote == 0x22 || quote == 0x27 then
        if !(isBoundary tagRegion (srcOffset + 5)) then none
        else
          match findSub (tagRegion.drop (srcOffset + 5)) [quote] with
          | none => some (fs, false)
          | some endQuote =>
            let srcValue :=
              String.mk (utf8Decode ((tagRegion.drop (srcOffset + 5)).take endQuote))
            if acceptsRelative srcValue then
              match urlencoding_decode (rustTrim srcValue) with
              | none => none
              | some decoded => some (assetCopyStep fs sourceDir dataDir decoded)
            else some (fs, false)
      else some (fs, false)
    else some (fs, false)

/-- Result of the scanning loop: `fuelOut` is the artificial fuel bound
(provably unreachable for sufficient fuel, see the termination theorem),
`panicked` models a Rust panic, `done` carries the filesystem and the
copied-asset count. -/
inductive ScanRes where
  | fuelOut : ScanRes
  | panicked : ScanRes
  | done : Fs → Nat → ScanRes
deriving DecidableEq

/-- The `while pos < content_len` loop of lines 147-199: find `<img`
case-insensitively in `content[pos..]` (that slice panics when `pos` is
not a character boundary), slice the 1000-byte lookahead window
`content[abs_pos..search_end]` (panicking when either end is not a
boundary), process it with `scanStep`, and continue at `abs_pos + 4`. -/
def scanLoop (sourceDir dataDir : Path) (bytes : List Nat) (fuel : Nat)
    (fs : Fs) (pos count : Nat) : ScanRes :=
  match fuel with
  | 0 => .fuelOut
  | fuel' + 1 =>
    if pos < bytes.length then
      if !(isBoundary bytes pos) then .panicked
      else
        match findSub (lowerBytes (bytes.drop pos)) imgPat with
        | none => .done fs count
        | some imgPos =>
          if !(isBoundary bytes (pos + imgPos)
              && isBoundary bytes (min (pos + imgPos + 1000) bytes.length)) then
            .panicked
          else
            match scanStep fs sourceDir dataDir
                ((bytes.drop (pos + imgPos)).take
                  (min (pos + imgPos + 1000) bytes.length - (pos + imgPos))) with
            | none => .panicked
            | some (fs', copied) =>
              scanLoop sourceDir dataDir bytes fuel' fs' (pos + imgPos + 4)
                (count + if copied then 1 else 0)
    else .done fs count

/-- `copy_html_with_images`: validate the source, flatten-copy the
document into the store root under its basename (failing the whole
operation on failure), read the document as text treating unreadable
content as empty, then run the asset scan.  `none` models a panic during
the scan; on success the stored basename, the diagnostic copy count and
the final filesystem are returned. -/
def copy_html_with_images (fs : Fs) (dataDir : Path) (sourcePath : String) :
    Option (Except String (String × Nat × Fs)) :=
  let source := parseComps sourcePath
  if !(pathExists fs source) then
    some (.error ("Source file does not exist: " ++ sourcePath))
  else
    let sourceDir := source.dropLast
    match fileName source with
    | none => some (.error ("Invalid filename"))
    | some fn =>
      match get_data_dir fs dataDir with
      | .error e => some (.error e)
      | .ok fs1 =>
        match fsCopy fs1 source (dataDir ++ [fn]) with
        | .error _ => some (.error ("Failed to copy HTML file"))
        | .ok fs2 =>
          let content :=
            match lookupFile fs2 (resolvePath source) with
            | some (some s) => s
            | _ => ""
          let bytes := strBytes content
          match scanLoop sourceDir dataDir bytes (bytes.length + 1) fs2 0 0 with
          | .fuelOut => none
          | .panicked => none
          | .done fs3 cnt => some (.ok (fn, cnt, fs3))

/-! ## Shared lemmas about the filesystem model -/

theorem isPrefixOf_self (l : Path) : List.isPrefixOf l l = true := by
  simp [List.isPrefixOf_iff_prefix]

theorem isDirAt_of_mem_dirs {fs : Fs} {p : Path} (h : p ∈ fs.dirs) :
    isDirAt fs p = true := by
  unfold isDirAt
  have : fs.dirs.any (fun d => p.isPrefixOf d) = true :=
    List.any_eq_true.mpr ⟨p, h, isPrefixOf_self p⟩
  simp [this]

theorem get_data_dir_ok {fs : Fs} {dataDir : Path} (h : dataDir ∈ fs.dirs)
    (hn : resolvePath dataDir = dataDir) : get_data_dir fs dataDir = .ok fs := by
  unfold get_data_dir pathExists
  rw [hn, isDirAt_of_mem_dirs h]
  simp

theorem lookupFile_fsWrite_self (fs : Fs) (p : Path) (d : Option String) :
    lookupFile (fsWrite fs p d) p = some d := by
  simp [lookupFile, fsWrite, List.find?_cons_of_pos]

theorem fsWrite_dirs (fs : Fs) (p : Path) (d : Option String) :
    (fsWrite fs p d).dirs = fs.dirs := rfl

theorem createDirAll_ok_files {fs fs' : Fs} {p : Path}
    (h : createDirAll fs p = .ok fs') : fs'.files = fs.files := by
  unfold createDirAll at h
  split at h
  · cases h
  · cases h; rfl

theorem createDirAll_ok_dirs {fs fs' : Fs} {p : Path}
    (h : createDirAll fs p = .ok fs') : fs'.dirs = p :: fs.dirs := by
  unfold createDirAll at h
  split at h
  · cases h
  · cases h; rfl

theorem lookupFile_congr_files {fs fs' : Fs} (h : fs'.files = fs.files)
    (p : Path) : lookupFile fs' p = lookupFile fs p := by
  simp [lookupFile, h]

theorem lookupFile_fsRemove_self (fs : Fs) (p : Path) :
    lookupFile (fsRemoveFile fs p) p = none := by
  simp only [lookupFile, fsRemoveFile, Option.map_eq_none', List.find?_eq_none]
  intro e he
  have := (List.mem_filter.mp he).2
  simp_all

theorem fsRemove_dirs (fs : Fs) (p : Path) : (fsRemoveFile fs p).dirs = fs.dirs :=
  rfl

theorem isDirAt_fsRemove_false {fs : Fs} {p q : Path}
    (h : isDirAt fs p = false) : isDirAt (fsRemoveFile fs q) p = false := by
  simp only [isDirAt, Bool.or_eq_false_iff, List.any_eq_false] at h ⊢
  refine ⟨⟨h.1.1, h.1.2⟩, ?_⟩
  intro e he
  exact h.2 e (List.mem_filter.mp he).1

/-! ## Claim C2: the relative-reference classifier -/

theorem singleton_isPrefixOf_eq (c : Char) (l : List Char) :
    List.isPrefixOf [c] l = false ↔ l.head? ≠ some c := by
  cases l with
  | nil => simp [List.isPrefixOf]
  | cons a t =>
    simp only [List.isPrefixOf, List.isPrefixOf_nil_left, Bool.and_true,
      List.head?_cons, ne_eq, Option.some.injEq]
    constructor
    · intro h hac
      rw [hac] at h
      simp at h
    · intro h
      by_contra hb
      simp only [Bool.not_eq_false, beq_iff_eq] at hb
      exact h hb.symm

/-- Claim C2: the relative-reference classifier, applied to a raw `src`
attribute value, first trims whitespace, rejects the value if the
trimmed result is empty or starts (case-sensitive prefix match) with
`http://`, `https://`, `data:`, `blob:`, `file:`, or `/`, and accepts
every other value; in particular the six listed absolute/URI examples
are rejected while `images/fig1.png` and `fig1.png` are accepted. -/
theorem c2_relative_reference_classifier :
    (∀ s : String,
      acceptsRelative s = true ↔
        (rustTrimList s.data ≠ []
         ∧ List.isPrefixOf ("http://").data (rustTrimList s.data) = false
         ∧ List.isPrefixOf ("https://").data (rustTrimList s.data) = false
         ∧ List.isPrefixOf ("data:").data (rustTrimList s.data) = false
         ∧ List.isPrefixOf ("blob:").data (rustTrimList s.data) = false
         ∧ List.isPrefixOf ("file:").data (rustTrimList s.data) = false
         ∧ (rustTrimList s.data).head? ≠ some '/'))
    ∧ acceptsRelative ("http://x/y.png") = false
    ∧ acceptsRelative ("https://x/y.png") = false
    ∧ acceptsRelative ("data:image/png;base64,AAA") = false
    ∧ acceptsRelative ("blob:abc") = false
    ∧ acceptsRelative ("file:///x") = false
    ∧ acceptsRelative ("/abs/path.png") = false
    ∧ acceptsRelative ("images/fig1.png") = true
    ∧ acceptsRelative ("fig1.png") = true := by
  refine ⟨fun s => ?_, by decide, by decide, by decide, by decide, by decide,
    by decide, by decide, by decide⟩
  simp only [acceptsRelative, Bool.and_eq_true, Bool.not_eq_true',
    singleton_isPrefixOf_eq, List.isEmpty_eq_false, ne_eq, and_assoc]

/-! ## Claim C3: the percent-decoder -/

/-- Claim C3 (code bug): the decoder handles the documented examples
(`fig%201.png` to `fig 1.png`, invalid escape `fig%zz.png` unchanged),
but it does not succeed on every input string: on `"%0é"` the slice
`input[i+1..i+3]` ends inside the two-byte encoding of `é`, which
panics in Rust (`none` in the model), contradicting the never-fails
guarantee. -/
theorem c3_percent_decoder_examples_and_panic :
    urlencoding_decode ("fig%201.png") = some ("fig 1.png")
    ∧ urlencoding_decode ("fig%zz.png") = some ("fig%zz.png")
    ∧ urlencoding_decode ("%0é") = none := by
  refine ⟨by decide, by decide, by decide⟩

/-! ## Claim C10: termination of the scanning loop -/

/-- Claim C10: the img-tag scanning loop terminates for every document
content: with any fuel exceeding the number of unscanned bytes the loop
never exhausts its fuel, because every iteration either breaks or
advances the position past the current tag start by 4. -/
theorem c10_scan_loop_terminates :
    ∀ (sourceDir dataDir : Path) (bytes : List Nat) (fuel : Nat) (fs : Fs)
      (pos count : Nat), bytes.length - pos < fuel →
      scanLoop sourceDir dataDir bytes fuel fs pos count ≠ .fuelOut := by
  intro sd dd bytes fuel
  induction fuel with
  | zero => intro fs pos count h; omega
  | succ n ih =>
    intro fs pos count h
    simp only [scanLoop]
    split
    · next hpos =>
      split
      · simp
      · split
        · simp
        · split
          · simp
          · split
            · simp
            · next fs' copied _ =>
              exact ih fs' _ _ (by omega)
    · simp

/-- Witness for the termination theorem at a concrete input. -/
theorem c10_scan_loop_terminates_witness :
    ((strBytes ("<img src='x'>")).length - 0 < 14)
    ∧ scanLoop [] [] (strBytes ("<img src='x'>")) 14 ⟨[], []⟩ 0 0 ≠ .fuelOut :=
  ⟨by decide,
   c10_scan_loop_terminates [] [] (strBytes ("<img src='x'>")) 14 ⟨[], []⟩ 0 0
     (by decide)⟩

/-! ## Claim C4: the 1000-byte lookahead window -/

/-- Claim C4: for an `<img` occurrence found at `pos + imgPos`, the
`src=` attribute is searched only inside the window reaching to
`min (tag start + 1000) (content length)`; when no `src=` occurs in
that window — in particular when the tag's `src=` lies more than 1000
bytes after the tag start — the occurrence is skipped with no copy and
no count change, and scanning continues at tag start + 4. -/
theorem c4_src_window_bound :
    ∀ (sourceDir dataDir : Path) (bytes : List Nat) (fuel : Nat) (fs : Fs)
      (pos count imgPos : Nat),
      pos < bytes.length →
      isBoundary bytes pos = true →
      findSub (lowerBytes (bytes.drop pos)) imgPat = some imgPos →
      isBoundary bytes (pos + imgPos) = true →
      isBoundary bytes (min (pos + imgPos + 1000) bytes.length) = true →
      findSub (lowerBytes ((bytes.drop (pos + imgPos)).take
          (min (pos + imgPos + 1000) bytes.length - (pos + imgPos)))) srcPat
        = none →
      scanLoop sourceDir dataDir bytes (fuel + 1) fs pos count =
        scanLoop sourceDir dataDir bytes fuel fs (pos + imgPos + 4) count := by
  intro sd dd bytes fuel fs pos count imgPos h1 h2 h3 h4 h5 h6
  have hstep : scanStep fs sd dd ((bytes.drop (pos + imgPos)).take
      (min (pos + imgPos + 1000) bytes.length - (pos + imgPos)))
      = some (fs, false) := by
    unfold scanStep
    rw [h6]
  simp only [scanLoop, h1, if_true, h2, h3, h4, h5, hstep, Bool.and_self,
    Bool.not_true, Bool.false_eq_true, if_false, if_pos h1]
  simp

/-- Witness for the window-bound theorem: a document whose single `<img`
tag has its `src=` more than 1000 bytes after the tag start. -/
def c4bytes : List Nat :=
  strBytes ("<img ") ++ List.replicate 1000 0x78 ++ strBytes (" src='a.png'>")

theorem c4_src_window_bound_witness :
    (0 < c4bytes.length
     ∧ isBoundary c4bytes 0 = true
     ∧ findSub (lowerBytes (c4bytes.drop 0)) imgPat = some 0
     ∧ isBoundary c4bytes (0 + 0) = true
     ∧ isBoundary c4bytes (min (0 + 0 + 1000) c4bytes.length) = true
     ∧ findSub (lowerBytes ((c4bytes.drop (0 + 0)).take
         (min (0 + 0 + 1000) c4bytes.length - (0 + 0)))) srcPat = none)
    ∧ scanLoop ["docs"] ["home", "u", "store"] c4bytes (5 + 1)
        ⟨[(["docs", "a.png"], some ("PNG"))], [["home", "u", "store"]]⟩ 0 0 =
      scanLoop ["docs"] ["home", "u", "store"] c4bytes 5
        ⟨[(["docs", "a.png"], some ("PNG"))], [["home", "u", "store"]]⟩
        (0 + 0 + 4) 0 :=
  ⟨⟨by decide, by decide, by decide, by decide, by decide, by decide⟩,
   c4_src_window_bound ["docs"] ["home", "u", "store"] c4bytes 5
     ⟨[(["docs", "a.png"], some ("PNG"))], [["home", "u", "store"]]⟩ 0 0 0
     (by decide) (by decide) (by decide) (by decide) (by decide) (by decide)⟩

/-! ## Concrete fixtures -/

/-- A store root, assumed created (as `get_data_dir` guarantees). -/
def ddFix : Path := ["home", "u", "store"]

/-- Claim C1's failing document: the single multi-byte character `é`
straddles byte offset 1000, so the lookahead-window slice
`content[0..1000]` ends inside a character and panics. -/
def c1content : String := "<img" ++ String.mk (List.replicate 995 'a') ++ "é"

def fsC1panic : Fs := ⟨[(["docs", "p.html"], some c1content)], [ddFix]⟩

/-- A source document whose bytes are not valid UTF-8. -/
def fsC1bin : Fs := ⟨[(["docs", "b.html"], none)], [ddFix]⟩

/-- A source document with a malformed `<img` tag (no quoted value). -/
def fsC1mal : Fs := ⟨[(["docs", "m.html"], some ("<img src="))], [ddFix]⟩

/-- The spec's ingestion scenario: `/docs/paper.html` referencing the
sibling `images/fig1.png`. -/
def fsC5 : Fs :=
  ⟨[(["docs", "paper.html"], some ("<img src=\"images/fig1.png\">")),
    (["docs", "images", "fig1.png"], some ("PNGDATA"))], [ddFix]⟩

/-- The filesystem after ingesting the C5 scenario. -/
def fsC5after : Fs :=
  match copy_html_with_images fsC5 ddFix ("/docs/paper.html") with
  | some (.ok (_, _, f)) => f
  | _ => ⟨[], []⟩

/-- Claim C6's scenario: the document references `../../secret.txt`,
which resolves to `/secret.txt` next to the root. -/
def fsC6 : Fs :=
  ⟨[(["docs", "p.html"], some ("<img src=\"../../secret.txt\">")),
    (["secret.txt"], some ("TOP-SECRET"))], [ddFix]⟩

/-- The filesystem after ingesting the C6 scenario. -/
def fsC6after : Fs :=
  match copy_html_with_images fsC6 ddFix ("/docs/p.html") with
  | some (.ok (_, _, f)) => f
  | _ => ⟨[], []⟩

/-- The filesystem after writing `../../escaped.txt` through the store. -/
def fsC6written : Fs :=
  match write_data_file ⟨[], [ddFix]⟩ ddFix ("../../escaped.txt") ("OUT") with
  | .ok f => f
  | .error _ => ⟨[], []⟩

/-! ## Claim C1: best-effort ingestion -/

/-- Claim C1 (code bug): unreadable content is treated as empty and
malformed tag markup is skipped without failing the ingestion (second
and third conjuncts), but the overall operation does not succeed for
every document content: on `c1content` the primary copy succeeds and
the scan then panics (first conjunct), because the window slice
`content[abs_pos..search_end]` ends inside the two-byte character `é`
(Rust: byte index 1000 is not a char boundary). -/
theorem c1_ingestion_panics_on_straddling_char :
    copy_html_with_images fsC1panic ddFix ("/docs/p.html") = none
    ∧ (∃ fs', copy_html_with_images fsC1bin ddFix ("/docs/b.html") =
        some (.ok ("b.html", 0, fs')))
    ∧ (∃ fs', copy_html_with_images fsC1mal ddFix ("/docs/m.html") =
        some (.ok ("m.html", 0, fs'))) :=
  ⟨rfl, ⟨_, rfl⟩, ⟨_, rfl⟩⟩

/-! ## Claim C5: the two copy policies -/

theorem mkdirStep_files (fs : Fs) (c : Bool) (p : Path) :
    (if c = true then fs
     else
       match createDirAll fs p with
       | .ok f => f
       | .error _ => fs).files = fs.files := by
  split
  · rfl
  · split
    · next f hf => exact createDirAll_ok_files hf
    · rfl

theorem fsCopy_ok_lookup {fs fs' : Fs} {src dst : Path}
    (h : fsCopy fs src dst = .ok fs') :
    lookupFile fs' (resolvePath dst) = lookupFile fs (resolvePath src) := by
  cases hl : lookupFile fs (resolvePath src) with
  | none => simp [fsCopy, hl] at h
  | some d =>
    cases h1 : isDirAt fs (resolvePath dst) with
    | true => simp [fsCopy, hl, h1] at h
    | false =>
      cases h2 : isDirAt fs ((resolvePath dst).dropLast) with
      | false => simp [fsCopy, hl, h1, h2] at h
      | true =>
        simp [fsCopy, hl, h1, h2] at h
        rw [← h, lookupFile_fsWrite_self]

/-- Claim C5: ingestion applies two distinct copy policies.  The
returned stored name of the primary document is always its basename
(first conjunct; the destination of the primary copy is
`dataDir ++ [fn]` by definition of `copy_html_with_images`), while every
asset the scan copies lands at the store root joined with the decoded
relative path, carrying the source file's content (second conjunct,
about the copy step every accepted reference goes through).  The spec's
scenario (third conjunct) shows both policies concretely: `paper.html`
is flattened to the root while `images/fig1.png` keeps its subpath and
is not flattened. -/
theorem c5_two_copy_policies :
    (∀ (fs : Fs) (dataDir : Path) (sp fn : String) (cnt : Nat) (fs' : Fs),
      copy_html_with_images fs dataDir sp = some (.ok (fn, cnt, fs')) →
      fileName (parseComps sp) = some fn)
    ∧ (∀ (fs : Fs) (sourceDir dataDir : Path) (dec : String) (fs' : Fs),
      assetCopyStep fs sourceDir dataDir dec = (fs', true) →
      lookupFile fs' (resolvePath (joinPath dataDir dec)) =
        lookupFile fs (resolvePath (joinPath sourceDir dec)))
    ∧ (copy_html_with_images fsC5 ddFix ("/docs/paper.html") =
        some (.ok ("paper.html", 1, fsC5after))
      ∧ lookupFile fsC5after (ddFix ++ ["paper.html"]) =
          some (some ("<img src=\"images/fig1.png\">"))
      ∧ lookupFile fsC5after (ddFix ++ ["images", "fig1.png"]) =
          some (some ("PNGDATA"))
      ∧ lookupFile fsC5after (ddFix ++ ["fig1.png"]) = none) := by
  refine ⟨?_, ?_, rfl, by decide, by decide, by decide⟩
  · intro fs dataDir sp fn cnt fs' h
    simp only [copy_html_with_images] at h
    split at h
    · simp at h
    · split at h
      · simp at h
      · next fn' hfn =>
        split at h
        · simp at h
        · split at h
          · simp at h
          · split at h
            · cases h
            · cases h
            · simp only [Option.some.injEq, Except.ok.injEq, Prod.mk.injEq] at h
              rw [hfn, h.1]
  · intro fs sd dd dec fs' h
    simp only [assetCopyStep] at h
    split at h
    · split at h
      · next fs2 hcopy =>
        rw [Prod.mk.injEq] at h
        obtain ⟨h1, -⟩ := h
        subst h1
        rw [fsCopy_ok_lookup hcopy]
        exact lookupFile_congr_files (mkdirStep_files _ _ _) _
      · simp at h
    · simp at h

/-- Witness for the two-copy-policies theorem: both quantified parts
applied at the spec's scenario. -/
theorem c5_two_copy_policies_witness :
    fileName (parseComps ("/docs/paper.html")) = some ("paper.html")
    ∧ lookupFile (assetCopyStep fsC5 ["docs"] ddFix ("images/fig1.png")).1
        (resolvePath (joinPath ddFix ("images/fig1.png"))) =
      lookupFile fsC5 (resolvePath (joinPath ["docs"] ("images/fig1.png"))) :=
  ⟨c5_two_copy_policies.1 fsC5 ddFix ("/docs/paper.html") ("paper.html") 1
      fsC5after rfl,
   c5_two_copy_policies.2.1 fsC5 ["docs"] ddFix ("images/fig1.png")
      (assetCopyStep fsC5 ["docs"] ddFix ("images/fig1.png")).1 rfl⟩

/-! ## Claim C6: no `..` escape guard -/

/-- Claim C6: no `..` normalization or escape guard exists: the accepted
reference `../../secret.txt` is joined onto the source and store roots
directly, so the existing source file is copied to `/home/secret.txt`,
outside the store root `/home/u/store`, with the ingestion reporting one
successful asset copy and no error; likewise a caller-supplied relative
name `../../escaped.txt` given to the write operation lands outside the
root. -/
theorem c6_dotdot_escapes_store_root :
    (copy_html_with_images fsC6 ddFix ("/docs/p.html") =
        some (.ok ("p.html", 1, fsC6after))
      ∧ lookupFile fsC6after ["home", "secret.txt"] = some (some ("TOP-SECRET"))
      ∧ List.isPrefixOf ddFix ["home", "secret.txt"] = false)
    ∧ (write_data_file ⟨[], [ddFix]⟩ ddFix ("../../escaped.txt") ("OUT") =
        .ok fsC6written
      ∧ lookupFile fsC6written ["home", "escaped.txt"] = some (some ("OUT"))
      ∧ List.isPrefixOf ddFix ["home", "escaped.txt"] = false) :=
  ⟨⟨rfl, by decide, by decide⟩, ⟨rfl, by decide, by decide⟩⟩

/-! ## Claim C7: the copy-in contract -/

theorem isOk_ok {ε α : Type} (a : α) : (Except.ok a : Except ε α).isOk = true :=
  rfl

theorem isOk_error {ε α : Type} (e : ε) :
    (Except.error e : Except ε α).isOk = false := rfl

/-- Claim C7: with the store root available (the externally provided
capability), `copy_file_to_data` fails exactly when the source path does
not exist, has no extractable filename, or the copy itself fails; on
success it stores the file under the store root joined with its basename
only, with the source's content, and returns that basename. -/
theorem c7_copy_in_contract :
    ∀ (fs : Fs) (dataDir : Path) (sourcePath : String),
      dataDir ∈ fs.dirs → resolvePath dataDir = dataDir →
      (((copy_file_to_data fs dataDir sourcePath).isOk = false) ↔
        (pathExists fs (parseComps sourcePath) = false
         ∨ fileName (parseComps sourcePath) = none
         ∨ ∃ fn, fileName (parseComps sourcePath) = some fn
             ∧ (fsCopy fs (parseComps sourcePath) (dataDir ++ [fn])).isOk
                 = false))
      ∧ (∀ fn fs', copy_file_to_data fs dataDir sourcePath = .ok (fn, fs') →
          fileName (parseComps sourcePath) = some fn
          ∧ lookupFile fs' (resolvePath (dataDir ++ [fn])) =
              lookupFile fs (resolvePath (parseComps sourcePath))) := by
  intro fs dd sp hmem hnorm
  have hgd := get_data_dir_ok hmem hnorm
  constructor
  · cases hex : pathExists fs (parseComps sp) with
    | false => simp [copy_file_to_data, hex, isOk_error]
    | true =>
      cases hfn : fileName (parseComps sp) with
      | none => simp [copy_file_to_data, hex, hfn, isOk_error]
      | some fn =>
        cases hc : fsCopy fs (parseComps sp) (dd ++ [fn]) with
        | error e =>
          simp only [copy_file_to_data, hex, hfn, hgd, hc, Bool.not_true,
            Bool.false_eq_true, if_false, isOk_error]
          constructor
          · intro _
            exact Or.inr (Or.inr ⟨fn, rfl, by rw [hc]; rfl⟩)
          · intro _
            trivial
        | ok fs2 =>
          simp only [copy_file_to_data, hex, hfn, hgd, hc, Bool.not_true,
            Bool.false_eq_true, if_false, isOk_ok]
          constructor
          · intro hfalse
            cases hfalse
          · intro hr
            rcases hr with h1 | h2 | ⟨fn', hfn', hc'⟩
            · cases h1
            · cases h2
            · rw [Option.some.injEq] at hfn'
              rw [← hfn', hc] at hc'
              cases hc'
  · intro fn fs' h
    simp only [copy_file_to_data] at h
    split at h
    · cases h
    · split at h
      · cases h
      · next fn0 hfn =>
        rw [hgd] at h
        split at h
        · cases h
        · next fs2 hc =>
          injection hc with hc2
          subst hc2
          split at h
          · cases h
          · next fs3 hc3 =>
            injection h with h1
            injection h1 with h2 h3
            subst h2
            subst h3
            exact ⟨hfn, fsCopy_ok_lookup hc3⟩

/-- A concrete store and source file for the copy-in witness. -/
def fsW7 : Fs := ⟨[(["docs", "f.txt"], some ("F"))], [ddFix]⟩

/-- Witness for the copy-in contract at a concrete filesystem. -/
theorem c7_copy_in_contract_witness :
    (ddFix ∈ fsW7.dirs ∧ resolvePath ddFix = ddFix)
    ∧ (((copy_file_to_data fsW7 ddFix ("/docs/f.txt")).isOk = false) ↔
        (pathExists fsW7 (parseComps ("/docs/f.txt")) = false
         ∨ fileName (parseComps ("/docs/f.txt")) = none
         ∨ ∃ fn, fileName (parseComps ("/docs/f.txt")) = some fn
             ∧ (fsCopy fsW7 (parseComps ("/docs/f.txt")) (ddFix ++ [fn])).isOk
                 = false))
    ∧ (∀ fn fs', copy_file_to_data fsW7 ddFix ("/docs/f.txt") = .ok (fn, fs') →
        fileName (parseComps ("/docs/f.txt")) = some fn
        ∧ lookupFile fs' (resolvePath (ddFix ++ [fn])) =
            lookupFile fsW7 (resolvePath (parseComps ("/docs/f.txt")))) :=
  ⟨⟨by decide, by decide⟩,
   (c7_copy_in_contract fsW7 ddFix ("/docs/f.txt") (by decide) (by decide)).1,
   (c7_copy_in_contract fsW7 ddFix ("/docs/f.txt") (by decide) (by decide)).2⟩

/-! ## Claim C8: write/read round trip -/

/-- Claim C8: when a write through the store succeeds (a "valid write"),
reading the same relative name back returns exactly the written content,
and every proper ancestor of the written path is a directory afterwards
(the write created the intermediate directories implied by the name). -/
theorem c8_write_read_roundtrip :
    ∀ (fs : Fs) (dataDir : Path) (name content : String) (fs1 : Fs),
      dataDir ∈ fs.dirs → resolvePath dataDir = dataDir →
      write_data_file fs dataDir name content = .ok fs1 →
      read_data_file fs1 dataDir name = .ok content
      ∧ (∀ q, List.isPrefixOf q (resolvePath (joinPath dataDir name)) = true →
          q ≠ resolvePath (joinPath dataDir name) → isDirAt fs1 q = true) := by
  intro fs dd name content fs1 hmem hnorm hw
  have hgd := get_data_dir_ok hmem hnorm
  simp only [write_data_file, hgd] at hw
  split at hw
  · cases hw
  · next fs2 hps =>
    split at hw
    · cases hw
    · split at hw
      · cases hw
      · simp only [Except.ok.injEq] at hw
        subst hw
        have hdd2 : dd ∈ fs2.dirs := by
          split at hps
          · simp only [Except.ok.injEq] at hps; subst hps; exact hmem
          · split at hps
            · simp only [Except.ok.injEq] at hps; subst hps; exact hmem
            · split at hps
              · next f hf =>
                simp only [Except.ok.injEq] at hps
                subst hps
                rw [createDirAll_ok_dirs hf]
                exact List.mem_cons_of_mem _ hmem
              · cases hps
        constructor
        · have hgd1 : get_data_dir
              (fsWrite fs2 (resolvePath (joinPath dd name)) (some content)) dd
              = .ok (fsWrite fs2 (resolvePath (joinPath dd name)) (some content)) :=
            get_data_dir_ok (by rw [fsWrite_dirs]; exact hdd2) hnorm
          simp only [read_data_file, hgd1, lookupFile_fsWrite_self]
        · intro q hq hqne
          have hcond : (q.isPrefixOf (resolvePath (joinPath dd name))
              && !(q == resolvePath (joinPath dd name))) = true := by
            rw [hq, beq_eq_false_iff_ne.mpr hqne]
            rfl
          have hany : (fsWrite fs2 (resolvePath (joinPath dd name))
              (some content)).files.any
              (fun e => q.isPrefixOf e.1 && !(q == e.1)) = true :=
            List.any_eq_true.mpr
              ⟨(resolvePath (joinPath dd name), some content),
               List.mem_cons_self _ _, hcond⟩
          simp [isDirAt, hany]

/-- A fresh store for the round-trip witness. -/
def fsW8 : Fs := ⟨[], [ddFix]⟩

/-- The store after writing `notes/a.txt`. -/
def fsC8after : Fs :=
  match write_data_file fsW8 ddFix ("notes/a.txt") ("hello") with
  | .ok f => f
  | .error _ => ⟨[], []⟩

/-- Witness for the round-trip theorem at a concrete write. -/
theorem c8_write_read_roundtrip_witness :
    (ddFix ∈ fsW8.dirs ∧ resolvePath ddFix = ddFix
     ∧ write_data_file fsW8 ddFix ("notes/a.txt") ("hello") = .ok fsC8after)
    ∧ read_data_file fsC8after ddFix ("notes/a.txt") = .ok ("hello") :=
  ⟨⟨by decide, by decide, rfl⟩,
   (c8_write_read_roundtrip fsW8 ddFix ("notes/a.txt") ("hello") fsC8after
     (by decide) (by decide) rfl).1⟩

/-! ## Claim C9: idempotence of delete -/

/-- A store containing the file `a/b`, so that `a` is a directory. -/
def fsC9 : Fs := ⟨[(["home", "u", "store", "a", "b"], some ("x"))], [ddFix]⟩

/-- Claim C9 counterexample: deleting the name `a` while the store
contains the file `a/b` fails — the path exists (as a directory), the
file is absent, and `fs::remove_file` on a directory returns an error —
so delete does not succeed silently for every name. -/
theorem c9_delete_directory_errors :
    delete_data_file fsC9 ddFix ("a") = .error ("Failed to delete file") := rfl

/-- Claim C9 (amended): for every name whose joined path is not a
directory, delete is idempotent: deleting when the file is absent
succeeds silently, two consecutive deletes both succeed and change
nothing the second time, and afterwards nothing exists at the path. -/
theorem c9_delete_idempotent_amended :
    ∀ (fs : Fs) (dataDir : Path) (name : String),
      dataDir ∈ fs.dirs → resolvePath dataDir = dataDir →
      isDirAt fs (resolvePath (joinPath dataDir name)) = false →
      ∃ fs1, delete_data_file fs dataDir name = .ok fs1
        ∧ delete_data_file fs1 dataDir name = .ok fs1
        ∧ pathExists fs1 (joinPath dataDir name) = false := by
  intro fs dd name hmem hnorm hdir
  have hgd := get_data_dir_ok hmem hnorm
  cases hl : lookupFile fs (resolvePath (joinPath dd name)) with
  | none =>
    have hex : pathExists fs (joinPath dd name) = false := by
      simp [pathExists, hl, hdir]
    exact ⟨fs, by simp [delete_data_file, hgd, hex], by
      simp [delete_data_file, hgd, hex], hex⟩
  | some d =>
    have hex : pathExists fs (joinPath dd name) = true := by
      simp [pathExists, hl]
    refine ⟨fsRemoveFile fs (resolvePath (joinPath dd name)), ?_, ?_, ?_⟩
    · simp [delete_data_file, hgd, hex, hl]
    · have hmem1 : dd ∈ (fsRemoveFile fs (resolvePath (joinPath dd name))).dirs := by
        rw [fsRemove_dirs]; exact hmem
      have hgd1 := get_data_dir_ok hmem1 hnorm
      have hex1 : pathExists (fsRemoveFile fs (resolvePath (joinPath dd name)))
          (joinPath dd name) = false := by
        simp [pathExists, lookupFile_fsRemove_self, isDirAt_fsRemove_false hdir]
      simp [delete_data_file, hgd1, hex1]
    · simp [pathExists, lookupFile_fsRemove_self, isDirAt_fsRemove_false hdir]

/-- A store containing a plain file to delete. -/
def fsW9 : Fs := ⟨[(["home", "u", "store", "doc.txt"], some ("D"))], [ddFix]⟩

/-- Witness for the amended idempotence theorem at a concrete store. -/
theorem c9_delete_idempotent_amended_witness :
    (ddFix ∈ fsW9.dirs ∧ resolvePath ddFix = ddFix
     ∧ isDirAt fsW9 (resolvePath (joinPath ddFix ("doc.txt"))) = false)
    ∧ (∃ fs1, delete_data_file fsW9 ddFix ("doc.txt") = .ok fs1
        ∧ delete_data_file fs1 ddFix ("doc.txt") = .ok fs1
        ∧ pathExists fs1 (joinPath ddFix ("doc.txt")) = false) :=
  ⟨⟨by decide, by decide, by decide⟩,
   c9_delete_idempotent_amended fsW9 ddFix ("doc.txt") (by decide) (by decide)
     (by decide)⟩

end PR
